import Mathlib

/-!
Verification development for the CUHackit2026 repository.

The repository ships two VPython scripts (`newpy.py`, a ball crash
visualizer, and `main.py`, a knee-skeleton visualizer).  The design
document additionally describes an offline IMU fusion/event-detection
pipeline whose script is not among the shipped sources; that component is
modelled here directly from the design document's own algorithm and data
model, while everything that does appear in the shipped sources is
embedded from the source code itself.

Python floating-point numbers are modelled as real numbers; raw sensor
counts are integers.
-/

/-! ## Part 1: the IMU pipeline (modelled from the spec)

The fusion + event-detection core ("the last script") is not present in
the shipped sources, so every definition in this namespace is modelled
from the design document: the log parser (section 4.1), the complementary
filter (section 4.2), the event detector (section 4.3), the run summary
(section 4.4) and the pipeline error taxonomy (section 7).
-/

namespace Pipeline

/-- Modelled from the spec: one time-stepped IMU reading, already unit
converted — `ax, ay, az` in m/s² and `gx, gy, gz` in rad/s (section 3). -/
structure Sample where
  ax : ℝ
  ay : ℝ
  az : ℝ
  gx : ℝ
  gy : ℝ
  gz : ℝ

/-- Default sample used only to make list indexing total. -/
noncomputable def sample0 : Sample := ⟨0, 0, 0, 0, 0, 0⟩

/-- Modelled from the spec: per-sample `(roll, pitch)` in radians
(section 3, OrientationEstimate). -/
structure Orientation where
  roll : ℝ
  pitch : ℝ

/-- Default orientation used only to make list indexing total. -/
noncomputable def orient0 : Orientation := ⟨0, 0⟩

/-- Two-argument arctangent, the `atan2` used by the spec's filter
(section 4.2): the angle of the point `(x, y)`, with `atan2 0 0 = 0` as
the spec requires.  Realised as the complex argument of `x + y i`. -/
noncomputable def atan2 (y x : ℝ) : ℝ := Complex.arg ⟨x, y⟩

/-- Modelled from the spec: one raw log record `IMU: <ax> <ay> <az> <gx>
<gy> <gz>`, six signed integer sensor counts (section 4.1). -/
structure RawSample where
  ax : ℤ
  ay : ℤ
  az : ℤ
  gx : ℤ
  gy : ℤ
  gz : ℤ
deriving DecidableEq

/-- Digits-to-number accumulator for the integer fields of a log line. -/
def digitsToNat (l : List Char) : ℕ :=
  l.foldl (fun acc c => acc * 10 + (c.toNat - 48)) 0

/-- Parse a non-empty all-digit token as a natural number. -/
def parseNatTok (l : List Char) : Option ℕ :=
  if l.isEmpty then none
  else if l.all Char.isDigit then some (digitsToNat l) else none

/-- Modelled from the spec: parse one whitespace-separated token as a
signed decimal integer (section 6: "signed decimal integers"). -/
def parseIntTok : List Char → Option ℤ
  | '-' :: rest => (parseNatTok rest).map (fun n => -(n : ℤ))
  | l => (parseNatTok l).map (fun n => (n : ℤ))

/-- Split a line into maximal whitespace-free tokens. -/
def tokensAux (p : Char → Bool) : List Char → List Char → List (List Char)
  | [], cur => if cur.isEmpty then [] else [cur.reverse]
  | c :: rest, cur =>
    if p c then
      (if cur.isEmpty then tokensAux p rest [] else cur.reverse :: tokensAux p rest [])
    else tokensAux p rest (c :: cur)

/-- Whitespace tokenization of one log line. -/
def tokenize (l : List Char) : List (List Char) :=
  tokensAux Char.isWhitespace l []

/-- Split the log text into lines at newline characters. -/
def splitLinesAux : List Char → List Char → List (List Char)
  | [], cur => [cur.reverse]
  | c :: rest, cur =>
    if c = '\n' then cur.reverse :: splitLinesAux rest []
    else splitLinesAux rest (c :: cur)

/-- Lines of a log text. -/
def splitLines (text : List Char) : List (List Char) :=
  splitLinesAux text []

/-- Modelled from the spec: convert one line into zero or one raw sample.
A line qualifies exactly when it is `IMU:` followed by six signed decimal
integers, whitespace-separated, with no further fields; every other line
is skipped (section 4.1, ParseSkip). -/
def parseLine (line : List Char) : Option RawSample :=
  match tokenize line with
  | [tag, a, b, c, d, e, f] =>
    if tag = ['I', 'M', 'U', ':'] then
      match parseIntTok a, parseIntTok b, parseIntTok c,
            parseIntTok d, parseIntTok e, parseIntTok f with
      | some ax, some ay, some az, some gx, some gy, some gz =>
        some ⟨ax, ay, az, gx, gy, gz⟩
      | _, _, _, _, _, _ => none
    else none
  | _ => none

/-- Modelled from the spec: parse the whole log text in file order,
skipping non-matching lines (section 4.1). -/
def parseRawLog (text : List Char) : List RawSample :=
  (splitLines text).filterMap parseLine

/-- Modelled from the spec: accelerometer raw-to-SI scale,
`(1/16384) * 9.81` m/s² per count (section 4.1). -/
noncomputable def ACCEL_SCALE_SI : ℝ := (1 / 16384) * 9.81

/-- Modelled from the spec: gyro raw-to-SI scale, `(1/131) * (π/180)`
rad/s per count (section 4.1). -/
noncomputable def GYRO_SCALE_SI : ℝ := (1 / 131) * (Real.pi / 180)

/-- Modelled from the spec: fixed unit conversion of a raw sample
(section 4.1). -/
noncomputable def convertSample (r : RawSample) : Sample :=
  ⟨(r.ax : ℝ) * ACCEL_SCALE_SI, (r.ay : ℝ) * ACCEL_SCALE_SI,
   (r.az : ℝ) * ACCEL_SCALE_SI, (r.gx : ℝ) * GYRO_SCALE_SI,
   (r.gy : ℝ) * GYRO_SCALE_SI, (r.gz : ℝ) * GYRO_SCALE_SI⟩

/-- Modelled from the spec: default sample interval, 1/100 s
(section 4.2). -/
noncomputable def DT_DEFAULT : ℝ := 1 / 100

/-- Modelled from the spec: default complementary-filter weight
(section 4.2). -/
noncomputable def ALPHA_DEFAULT : ℝ := 0.98

/-- Modelled from the spec: accelerometer-only seed of the filter state
from sample 0 (section 4.2). -/
noncomputable def seed (s : Sample) : Orientation :=
  ⟨atan2 s.ay s.az,
   atan2 (-s.ax) (Real.sqrt (s.ay ^ 2 + s.az ^ 2))⟩

/-- Modelled from the spec: one complementary-filter step for sample
`i ≥ 1` (section 4.2's per-sample algorithm). -/
noncomputable def stepFilter (alpha dt : ℝ) (prev : Orientation) (s : Sample) :
    Orientation :=
  ⟨alpha * (prev.roll + s.gx * dt) + (1 - alpha) * atan2 s.ay s.az,
   alpha * (prev.pitch + s.gy * dt)
     + (1 - alpha) * atan2 (-s.ax) (Real.sqrt (s.ay ^ 2 + s.az ^ 2))⟩

/-- Modelled from the spec: run the filter over the remaining samples,
one output entry per input sample (section 4.2). -/
noncomputable def estimateFrom (alpha dt : ℝ) (prev : Orientation) :
    List Sample → List Orientation
  | [] => []
  | s :: rest =>
    stepFilter alpha dt prev s :: estimateFrom alpha dt (stepFilter alpha dt prev s) rest

/-- Modelled from the spec: the full orientation trajectory — seed from
sample 0, then one filter step per later sample (section 4.2). -/
noncomputable def estimate (alpha dt : ℝ) : List Sample → List Orientation
  | [] => []
  | s :: rest => seed s :: estimateFrom alpha dt (seed s) rest

/-- Modelled from the spec: impact threshold, 20 m/s² (section 4.3). -/
noncomputable def IMPACT_THRESHOLD : ℝ := 20

/-- Modelled from the spec: torsion threshold, 200 °/s converted to rad/s
before comparison (section 4.3). -/
noncomputable def TORSION_THRESHOLD : ℝ := 200 * (Real.pi / 180)

/-- Modelled from the spec: lateral-load threshold, 8 m/s²
(section 4.3). -/
noncomputable def LATERAL_THRESHOLD : ℝ := 8

/-- Euclidean norm of the acceleration vector of a sample. -/
noncomputable def accelNorm (s : Sample) : ℝ :=
  Real.sqrt (s.ax ^ 2 + s.ay ^ 2 + s.az ^ 2)

/-- Modelled from the spec: the Impact rule (section 4.3, strict `>`). -/
def impactRule (s : Sample) : Prop := IMPACT_THRESHOLD < accelNorm s

/-- Modelled from the spec: the Torsion rule (section 4.3). -/
def torsionRule (s : Sample) : Prop := TORSION_THRESHOLD < |s.gz|

/-- Modelled from the spec: the LateralLoad rule (section 4.3). -/
def lateralRule (s : Sample) : Prop := LATERAL_THRESHOLD < |s.ay|

open Classical in
/-- Modelled from the spec: one sequential scan collecting the ordered
set of qualifying sample indices for one rule (section 4.3). -/
noncomputable def detectIndices (rule : Sample → Prop) (samples : List Sample) :
    List ℕ :=
  (List.range samples.length).filter (fun i => decide (rule (samples.getD i sample0)))

/-- Impact event indices. -/
noncomputable def impactIndices (samples : List Sample) : List ℕ :=
  detectIndices impactRule samples

/-- Torsion event indices. -/
noncomputable def torsionIndices (samples : List Sample) : List ℕ :=
  detectIndices torsionRule samples

/-- LateralLoad event indices. -/
noncomputable def lateralIndices (samples : List Sample) : List ℕ :=
  detectIndices lateralRule samples

/-- Modelled from the spec: the error taxonomy of section 7 (ParseSkip is
not an error; EmptyInput and ConfigurationError are terminal failures). -/
inductive PipelineError
  | emptyInput
  | configurationError
deriving DecidableEq

/-- Modelled from the spec: the aggregated, immutable result of one
pipeline invocation (section 4.4). -/
structure RunSummary where
  orientation : List Orientation
  impacts : List ℕ
  torsion : List ℕ
  lateral : List ℕ
  sampleCount : ℕ
  impactCount : ℕ
  torsionCount : ℕ
  lateralCount : ℕ

/-- Modelled from the spec: the Run Summary aggregation stage — combine
the estimator trajectory, the three event-index sets and the scalar
counts, with no computation beyond aggregation (section 4.4). -/
noncomputable def summarize (alpha dt : ℝ) (samples : List Sample) :
    RunSummary :=
  { orientation := estimate alpha dt samples
    impacts := impactIndices samples
    torsion := torsionIndices samples
    lateral := lateralIndices samples
    sampleCount := samples.length
    impactCount := (impactIndices samples).length
    torsionCount := (torsionIndices samples).length
    lateralCount := (lateralIndices samples).length }

open Classical in
/-- Modelled from the spec: the full pipeline — validate configuration
(section 7, `alpha ∈ [0,1]`, `dt > 0`), parse, reject an empty sample
sequence, then estimate, detect and summarize (sections 2 and 7). -/
noncomputable def runPipeline (alpha dt : ℝ) (text : List Char) :
    Except PipelineError RunSummary :=
  if 0 ≤ alpha ∧ alpha ≤ 1 ∧ 0 < dt then
    match parseRawLog text with
    | [] => Except.error PipelineError.emptyInput
    | r :: rs => Except.ok (summarize alpha dt ((r :: rs).map convertSample))
  else Except.error PipelineError.configurationError

/-- Two invocations of the pipeline on the same text, modelling the
spec's "running the pipeline twice on the same log" (section 8); each
invocation owns its own state. -/
noncomputable def runPipelineTwice (alpha dt : ℝ) (text : List Char) :
    Except PipelineError RunSummary × Except PipelineError RunSummary :=
  (runPipeline alpha dt text, runPipeline alpha dt text)

/-- All-zero gyro channels, the hypothesis of the spec's degeneracy
property (section 8). -/
def gyroFree (l : List Sample) : Prop :=
  ∀ s ∈ l, s.gx = 0 ∧ s.gy = 0 ∧ s.gz = 0

/-- Concrete sample with accelerometer pointing along `ay` and no
rotation. -/
noncomputable def cexSampleA : Sample := ⟨0, 1, 0, 0, 0, 0⟩

/-- Concrete sample with accelerometer pointing along `az` and no
rotation. -/
noncomputable def cexSampleB : Sample := ⟨0, 0, 1, 0, 0, 0⟩

end Pipeline

/-! ## Part 2: `src/newpy.py` — Ball Crash Visualizer

Embeddings of the configuration constants, the `get_accel` fetch helper
with its `raw_to_g` conversion, the per-frame crash detection and the
per-frame physics step with the wall-bounce clamp of the main loop.
-/

namespace NewPy

/-- `RAW_MIN` (line 28): low end of the raw ADC range. -/
noncomputable def RAW_MIN : ℝ := 0

/-- `RAW_MAX` (line 28): high end of the raw ADC range. -/
noncomputable def RAW_MAX : ℝ := 1023

/-- `ACCEL_SCALE` (line 29): ±g full-scale of the mapped reading. -/
noncomputable def ACCEL_SCALE : ℝ := 2.0

/-- `CRASH_G_THRESHOLD` (line 31): crash spike threshold in g. -/
noncomputable def CRASH_G_THRESHOLD : ℝ := 2.5

/-- `CRASH_LINGER` (line 32): frames the crash overlay stays visible. -/
def CRASH_LINGER : ℕ := 60

/-- `BOX_HALF` (line 34). -/
noncomputable def BOX_HALF : ℝ := 2.0

/-- `BALL_RADIUS` (line 35). -/
noncomputable def BALL_RADIUS : ℝ := 0.18

/-- `DAMPING` (line 36): velocity multiplier on bounce. -/
noncomputable def DAMPING : ℝ := 0.85

/-- `GRAVITY` (line 37): the vector `(0, -0.04, 0)`. -/
noncomputable def GRAVITY : Fin 3 → ℝ := ![0, -0.04, 0]

/-- `FPS` (line 39). -/
def FPS : ℕ := 60

/-- `raw_to_g` (lines 53-55): affine map of a raw count from 0..1023 to
-ACCEL_SCALE..+ACCEL_SCALE. -/
noncomputable def raw_to_g (raw : ℝ) : ℝ :=
  (raw / RAW_MAX * 2 - 1.0) * ACCEL_SCALE

/-- JSON values as decoded by `resp.json()`.  Python's `float()` also
accepts numeric strings; that corner is not modelled (no theorem below
feeds a string where a number is required), so `str` carries no payload. -/
inductive Json
  | null
  | bool (b : Bool)
  | num (x : ℝ)
  | str
  | arr (l : List Json)
  | obj

/-- Outcome of `requests.get(...)` + `resp.json().get("value", None)`,
both inside the `try` block (lines 47-51): either some caught failure, or
the decoded `value` field (`Json.null` when the key is absent, matching
Python `None`). -/
inductive FetchResult
  | failure
  | value (v : Json)

/-- The one uncaught runtime error `get_accel` can produce: `float(raw)`
inside `raw_to_g` (line 55) raising on a non-numeric argument.  The
`raw_to_g` calls on line 58 sit outside the `try` block. -/
inductive PyError
  | typeError
deriving DecidableEq

/-- Python `float(raw)` on a decoded JSON value: numbers and booleans
convert (`True` is `1`, `False` is `0`); `None`, lists and objects raise
`TypeError`.  (Numeric strings, which `float` would also accept, are not
modelled; no theorem below exercises the `str` shape as a number.) -/
def pyFloat : Json → Except PyError ℝ
  | Json.num x => Except.ok x
  | Json.bool b => Except.ok (if b then 1 else 0)
  | _ => Except.error PyError.typeError

/-- `raw_to_g` as invoked on a decoded JSON element (line 58): `float`
first, then the affine map; the `float` call can raise. -/
noncomputable def raw_to_g_py (j : Json) : Except PyError ℝ := do
  let x ← pyFloat j
  pure (raw_to_g x)

/-- `get_accel` (lines 45-61): on fetch/decode failure return `None`; a
list value of length ≥ 3 is converted element-wise (possibly raising);
a numeric (or boolean, since `isinstance(True, int)` holds) value fills
only the X axis; every other shape returns `None`. -/
noncomputable def get_accel : FetchResult → Except PyError (Option (ℝ × ℝ × ℝ))
  | FetchResult.failure => Except.ok none
  | FetchResult.value v =>
    match v with
    | Json.arr (a :: b :: c :: _) => do
      let x ← raw_to_g_py a
      let y ← raw_to_g_py b
      let z ← raw_to_g_py c
      pure (some (x, y, z))
    | Json.num x => do
      let gx ← raw_to_g_py (Json.num x)
      pure (some (gx, 0.0, 0.0))
    | Json.bool b => do
      let gx ← raw_to_g_py (Json.bool b)
      pure (some (gx, 0.0, 0.0))
    | _ => Except.ok none

/-- `g_mag` (line 150): Euclidean magnitude of the acceleration reading
in g. -/
noncomputable def g_mag (ax ay az : ℝ) : ℝ :=
  Real.sqrt (ax ^ 2 + ay ^ 2 + az ^ 2)

/-- Crash detection (line 167): the crash branch fires exactly when
`g_mag >= CRASH_G_THRESHOLD`. -/
def crashDetected (ax ay az : ℝ) : Prop :=
  CRASH_G_THRESHOLD ≤ g_mag ax ay az

open Classical in
/-- The crash-counter update of one frame (lines 167-168 and 175-176):
a firing crash reloads the counter to `CRASH_LINGER`, then a positive
counter is decremented. -/
noncomputable def crashCounterStep (ax ay az : ℝ) (counter : ℕ) : ℕ :=
  let c := if CRASH_G_THRESHOLD ≤ g_mag ax ay az then CRASH_LINGER else counter
  if 0 < c then c - 1 else c

/-- Ball physics state of the main loop: `ball.pos` and `velocity`. -/
structure BallState where
  pos : Fin 3 → ℝ
  vel : Fin 3 → ℝ

open Classical in
/-- Wall bounce for one axis (lines 197-206): overshooting `lim` clamps
the position to `lim` and reflects-damps the velocity; likewise at
`-lim`; otherwise both are unchanged. -/
noncomputable def bounceAxis (p v : ℝ) : ℝ × ℝ :=
  let lim := BOX_HALF - BALL_RADIUS
  if lim < p then (lim, -|v| * DAMPING)
  else if p < -lim then (-lim, |v| * DAMPING)
  else (p, v)

open Classical in
/-- One main-loop physics iteration (lines 167-206) for a given
acceleration reading: crash impulse (lines 170-173), force + gravity
(lines 190-192), position integration (line 194), wall bounce
(lines 197-206). -/
noncomputable def stepFrame (accel : Fin 3 → ℝ) (st : BallState) : BallState :=
  let gm := Real.sqrt (accel 0 ^ 2 + accel 1 ^ 2 + accel 2 ^ 2)
  let vel0 :=
    if CRASH_G_THRESHOLD ≤ gm then
      st.vel + (min (gm / CRASH_G_THRESHOLD) 5.0 * 0.12) • accel
    else st.vel
  let vel1 := vel0 + (0.004 : ℝ) • accel + ((1 : ℝ) / (FPS : ℝ)) • GRAVITY
  let pos1 := st.pos + vel1
  { pos := fun i => (bounceAxis (pos1 i) (vel1 i)).1
    vel := fun i => (bounceAxis (pos1 i) (vel1 i)).2 }

/-- The main loop run over a finite list of per-frame acceleration
readings. -/
noncomputable def runFrames (inputs : List (Fin 3 → ℝ)) (st : BallState) :
    BallState :=
  inputs.foldl (fun s a => stepFrame a s) st

/-- The initial ball state (lines 92-97 and 134): position at the origin,
the initial velocity nudge. -/
noncomputable def ballInit : BallState :=
  { pos := ![0, 0, 0], vel := ![0.04, 0.07, 0.05] }

end NewPy

/-! ## Part 3: `src/main.py` — knee skeleton

Embedding of the `Skeleton` joint dictionary and its `rotate_joint` /
`_rotate_children` operations.  A Python `Joint` holds a reference to its
parent `Joint` object; here the parent is stored by name and looked up in
the joint dictionary, which coincides for skeletons built through
`add_joint` (where the parent entry is the parent object).  Recursion
depth is made explicit with a fuel parameter, mirroring Python's bounded
call stack; every property proved below holds for every fuel value.
-/

namespace MainPy

/-- 3-vectors, Python `np.array` of length 3. -/
abbrev Vec3 := Fin 3 → ℝ

/-- The mutable fields of a `Joint` relevant to the geometry:
`position`, `original_position` (lines 18-21) and the parent link. -/
structure Joint where
  position : Vec3
  original_position : Vec3
  parent : Option String

/-- The `Skeleton` state (lines 56-58): the joint dictionary and the
`children_by_parent` map (absent keys give `[]`, matching
`.get(joint_name, [])`). -/
structure Skeleton where
  joints : String → Option Joint
  children_by_parent : String → List String

/-- Replace one entry of the joint dictionary. -/
def updateJoint (sk : Skeleton) (name : String) (j : Joint) : Skeleton :=
  { joints := fun n => if n = name then some j else sk.joints n
    children_by_parent := sk.children_by_parent }

/-- The Rodrigues rotation matrix of `rotate_joint` (lines 78-88):
normalize the axis, build the cross-product matrix `K`, then
`R = I + sin(angle) K + (1 - cos(angle)) K²`.  (For a zero axis Python
produces NaNs; here `0⁻¹ = 0` — no theorem below depends on the matrix
entries.) -/
noncomputable def rotationMatrix (axis : Vec3) (angle : ℝ) :
    Matrix (Fin 3) (Fin 3) ℝ :=
  let n := (Real.sqrt (axis 0 ^ 2 + axis 1 ^ 2 + axis 2 ^ 2))⁻¹ • axis
  let K : Matrix (Fin 3) (Fin 3) ℝ :=
    Matrix.of ![![0, -n 2, n 1], ![n 2, 0, -n 0], ![-n 1, n 0, 0]]
  1 + Real.sin angle • K + (1 - Real.cos angle) • (K * K)

/-- `_rotate_children` (lines 99-110): missing names return unchanged;
otherwise the child's position is set to
`parent_joint.position + R @ (child.original_position - pivot)` and the
grandchildren are processed left to right with the updated child as the
new parent and the same pivot. -/
noncomputable def rotate_children (R : Matrix (Fin 3) (Fin 3) ℝ) (pivot : Vec3) :
    ℕ → Skeleton → String → Joint → Skeleton
  | 0, sk, _, _ => sk
  | fuel + 1, sk, jname, parent_joint =>
    match sk.joints jname with
    | none => sk
    | some child =>
      let child1 : Joint :=
        { position := parent_joint.position + R.mulVec (child.original_position - pivot)
          original_position := child.original_position
          parent := child.parent }
      let sk1 := updateJoint sk jname child1
      (sk1.children_by_parent jname).foldl
        (fun s g => rotate_children R pivot fuel s g child1) sk1

/-- `rotate_joint` (lines 69-97): absent names and parentless joints
return the skeleton unchanged; otherwise the joint is moved to
`parent.position + R @ (original_position - parent.original_position)`
and each child subtree is rotated about the pivot
`joint.original_position` with the updated joint as parent. -/
noncomputable def rotate_joint (fuel : ℕ) (sk : Skeleton) (joint_name : String)
    (axis : Vec3) (angle : ℝ) : Skeleton :=
  match sk.joints joint_name with
  | none => sk
  | some joint =>
    match joint.parent with
    | none => sk
    | some parent_name =>
      match sk.joints parent_name with
      | none => sk
      | some parent =>
        let R := rotationMatrix axis angle
        let joint1 : Joint :=
          { position :=
              parent.position + R.mulVec (joint.original_position - parent.original_position)
            original_position := joint.original_position
            parent := joint.parent }
        let sk1 := updateJoint sk joint_name joint1
        (sk1.children_by_parent joint_name).foldl
          (fun s g => rotate_children R joint.original_position fuel s g joint1) sk1

/-- Reachability along `children_by_parent` edges: the subtree of a named
joint consists of the names reachable from it (the name itself and its
transitive children). -/
inductive Reach (cbp : String → List String) : String → String → Prop
  | refl (a : String) : Reach cbp a a
  | step (a b c : String) (hmem : b ∈ cbp a) (h : Reach cbp b c) : Reach cbp a c

/-- Per-entry preservation relation: the entry is present in both states
with the same `original_position` and the same parent link, or absent in
both. -/
def JointShape : Option Joint → Option Joint → Prop
  | none, none => True
  | some a, some b => a.original_position = b.original_position ∧ a.parent = b.parent
  | _, _ => False

/-- Concrete one-joint skeleton used to instantiate the frame theorem. -/
noncomputable def skW : Skeleton :=
  { joints := fun n =>
      if n = "root" then some { position := fun _ => 0, original_position := fun _ => 0, parent := none }
      else none
    children_by_parent := fun _ => [] }

/-- Concrete rotation axis used to instantiate the frame theorem. -/
noncomputable def axisW : Vec3 := fun _ => 1

end MainPy

/-! ## Theorems -/

namespace NewPy

/-- The acceleration reading `(2.5, 0, 0)` has magnitude exactly the
crash threshold. -/
lemma g_mag_threshold : g_mag 2.5 0 0 = CRASH_G_THRESHOLD := by
  unfold g_mag CRASH_G_THRESHOLD
  rw [show (2.5 : ℝ) ^ 2 + 0 ^ 2 + 0 ^ 2 = 2.5 ^ 2 by norm_num]
  exact Real.sqrt_sq (by norm_num)

/-- C1 (counterexample): a sample whose acceleration magnitude equals the
crash threshold exactly IS flagged by the code (`>=` on line 167), so no
strict-inequality reading holds; moreover the threshold constant is
2.5 g, not 20. -/
theorem C1_counterexample :
    g_mag 2.5 0 0 = CRASH_G_THRESHOLD
    ∧ crashDetected 2.5 0 0
    ∧ ¬ CRASH_G_THRESHOLD < g_mag 2.5 0 0
    ∧ CRASH_G_THRESHOLD ≠ 20 := by
  refine ⟨g_mag_threshold, ?_, ?_, ?_⟩
  · unfold crashDetected
    rw [g_mag_threshold]
  · rw [g_mag_threshold]
    exact lt_irrefl _
  · unfold CRASH_G_THRESHOLD
    norm_num

/-- C1 (amended): crash detection uses a non-strict inequality — a frame
is flagged if and only if the magnitude of the converted acceleration (in
g) is at least `CRASH_G_THRESHOLD` (default 2.5 g); in particular a
reading whose magnitude equals the threshold exactly fires the crash
branch, reloading the crash counter to `CRASH_LINGER` (which the same
frame then decrements to `CRASH_LINGER - 1`). -/
theorem C1_crash_threshold_nonstrict (ax ay az : ℝ) :
    (crashDetected ax ay az ↔ CRASH_G_THRESHOLD ≤ g_mag ax ay az)
    ∧ (g_mag ax ay az = CRASH_G_THRESHOLD → crashDetected ax ay az)
    ∧ (∀ counter : ℕ, crashDetected ax ay az →
        crashCounterStep ax ay az counter = CRASH_LINGER - 1) := by
  refine ⟨Iff.rfl, fun h => ?_, fun counter h => ?_⟩
  · unfold crashDetected
    rw [h]
  · unfold crashDetected at h
    unfold crashCounterStep
    rw [if_pos h, if_pos (by norm_num [CRASH_LINGER])]

/-- C1 (witness): the amended theorem applied to the boundary reading
`(2.5, 0, 0)`. -/
theorem C1_crash_threshold_nonstrict_witness :
    crashCounterStep 2.5 0 0 0 = CRASH_LINGER - 1 :=
  (C1_crash_threshold_nonstrict 2.5 0 0).2.2 0
    ((C1_crash_threshold_nonstrict 2.5 0 0).2.1 g_mag_threshold)

/-- C2 (counterexample): `raw_to_g` does not multiply the raw count by
`(1/16384) * 9.81` (nor by any fixed factor): it sends the raw count 0 to
-2, while any pure scale factor sends 0 to 0. -/
theorem C2_counterexample :
    raw_to_g 0 = -2
    ∧ (1 / 16384 * 9.81) * (0 : ℝ) = 0
    ∧ raw_to_g 0 ≠ (1 / 16384 * 9.81) * (0 : ℝ) := by
  norm_num [raw_to_g, RAW_MAX, ACCEL_SCALE]

/-- C2 (amended): the conversion in the code is the affine map
`(raw / RAW_MAX * 2 - 1) * ACCEL_SCALE`, taking the raw ADC range onto
`-ACCEL_SCALE..+ACCEL_SCALE` g (0 ↦ -2 g, midpoint ↦ 0 g, 1023 ↦ +2 g),
governed by the named module-level constants `RAW_MAX` and
`ACCEL_SCALE`; the code performs no gyro conversion at all. -/
theorem C2_raw_to_g_affine (raw : ℝ) :
    raw_to_g raw = (raw / RAW_MAX * 2 - 1.0) * ACCEL_SCALE
    ∧ raw_to_g RAW_MIN = -ACCEL_SCALE
    ∧ raw_to_g RAW_MAX = ACCEL_SCALE
    ∧ raw_to_g (RAW_MAX / 2) = 0 := by
  refine ⟨rfl, ?_, ?_, ?_⟩ <;>
    norm_num [raw_to_g, RAW_MIN, RAW_MAX, ACCEL_SCALE]

/-- C8: evaluation of `get_accel` on the shapes the claim describes.  A
fetch failure and non-numeric scalar shapes yield `None`, and a numeric
value fills only the X axis — but a `value` list of length ≥ 3 whose
first element is JSON `null` makes the code raise an uncaught
`TypeError` from `float(None)` (the `raw_to_g` calls on line 58 sit
outside the `try` of lines 47-50), contradicting both the claim and the
function's own docstring ("Return (ax, ay, az) in g, or None on
failure"). -/
theorem C8_get_accel_uncaught_typeerror :
    get_accel (FetchResult.value (Json.arr [Json.null, Json.num 0, Json.num 0]))
      = Except.error PyError.typeError
    ∧ get_accel FetchResult.failure = Except.ok none
    ∧ (∀ x : ℝ, get_accel (FetchResult.value (Json.num x))
        = Except.ok (some (raw_to_g x, 0.0, 0.0)))
    ∧ (∀ a b c : ℝ, ∀ rest : List Json,
        get_accel (FetchResult.value
            (Json.arr (Json.num a :: Json.num b :: Json.num c :: rest)))
          = Except.ok (some (raw_to_g a, raw_to_g b, raw_to_g c)))
    ∧ get_accel (FetchResult.value Json.str) = Except.ok none
    ∧ get_accel (FetchResult.value Json.null) = Except.ok none
    ∧ get_accel (FetchResult.value (Json.arr [Json.num 1, Json.num 2]))
      = Except.ok none :=
  ⟨rfl, rfl, fun _ => rfl, fun _ _ _ _ => rfl, rfl, rfl, rfl⟩

end NewPy

namespace Pipeline

/-- C6: the pipeline is deterministic — both components of a double run
on byte-for-byte identical input are the same `RunSummary` result; the
embedding is a pure function of the log text and the configuration, with
no state carried between invocations. -/
theorem C6_pipeline_deterministic (alpha dt : ℝ) (text : List Char) :
    runPipelineTwice alpha dt text
      = (runPipeline alpha dt text, runPipeline alpha dt text)
    ∧ (runPipelineTwice alpha dt text).1 = (runPipelineTwice alpha dt text).2 :=
  ⟨rfl, rfl⟩

/-- The index list of one detection rule is sorted strictly
ascending: it is a filtering of `List.range`. -/
lemma detectIndices_sorted (rule : Sample → Prop) (samples : List Sample) :
    List.Sorted (fun a b => a < b) (detectIndices rule samples) :=
  (List.sorted_lt_range samples.length).filter _

/-- Membership in the index list of one detection rule is exactly
in-bounds plus that rule holding at the indexed sample. -/
lemma detectIndices_mem (rule : Sample → Prop) (samples : List Sample) (i : ℕ) :
    i ∈ detectIndices rule samples ↔
      i < samples.length ∧ rule (samples.getD i sample0) := by
  unfold detectIndices
  simp [List.mem_filter, List.mem_range]

/-- C5: each of the three event-index lists is strictly ascending with no
duplicate indices, and the three rules are evaluated independently — a
sample index belongs to a kind's list exactly when that kind's rule holds
at that sample, regardless of the other two rules, so an index may lie in
zero, one, two, or all three lists. -/
theorem C5_event_index_sets (samples : List Sample) :
    List.Sorted (fun a b => a < b) (impactIndices samples)
    ∧ (impactIndices samples).Nodup
    ∧ List.Sorted (fun a b => a < b) (torsionIndices samples)
    ∧ (torsionIndices samples).Nodup
    ∧ List.Sorted (fun a b => a < b) (lateralIndices samples)
    ∧ (lateralIndices samples).Nodup
    ∧ ∀ i : ℕ,
        (i ∈ impactIndices samples ↔
          i < samples.length ∧ impactRule (samples.getD i sample0))
        ∧ (i ∈ torsionIndices samples ↔
          i < samples.length ∧ torsionRule (samples.getD i sample0))
        ∧ (i ∈ lateralIndices samples ↔
          i < samples.length ∧ lateralRule (samples.getD i sample0)) := by
  refine ⟨detectIndices_sorted _ _, (detectIndices_sorted _ _).nodup,
    detectIndices_sorted _ _, (detectIndices_sorted _ _).nodup,
    detectIndices_sorted _ _, (detectIndices_sorted _ _).nodup,
    fun i => ⟨detectIndices_mem _ _ _, detectIndices_mem _ _ _,
      detectIndices_mem _ _ _⟩⟩

end Pipeline

namespace NewPy

/-- The wall limit `BOX_HALF - BALL_RADIUS` is nonnegative. -/
lemma wallLim_nonneg : (0 : ℝ) ≤ BOX_HALF - BALL_RADIUS := by
  norm_num [BOX_HALF, BALL_RADIUS]

/-- After the per-axis wall bounce, the position coordinate lies within
the wall limit in absolute value. -/
lemma bounceAxis_abs (p v : ℝ) :
    |(bounceAxis p v).1| ≤ BOX_HALF - BALL_RADIUS := by
  rw [abs_le]
  unfold bounceAxis
  by_cases h1 : BOX_HALF - BALL_RADIUS < p
  · rw [if_pos h1]
    exact ⟨neg_le_self wallLim_nonneg, le_refl _⟩
  · rw [if_neg h1]
    by_cases h2 : p < -(BOX_HALF - BALL_RADIUS)
    · rw [if_pos h2]
      exact ⟨le_refl _, neg_le_self wallLim_nonneg⟩
    · rw [if_neg h2]
      exact ⟨le_of_not_lt h2, le_of_not_lt h1⟩

/-- Every coordinate of the position after one full physics iteration is
within the wall limit, whatever the incoming state and reading. -/
lemma stepFrame_abs (accel : Fin 3 → ℝ) (st : BallState) (i : Fin 3) :
    |(stepFrame accel st).pos i| ≤ BOX_HALF - BALL_RADIUS :=
  bounceAxis_abs _ _

/-- Iterating the physics step keeps every coordinate within the wall
limit, given an in-bounds start. -/
lemma runFrames_abs :
    ∀ (inputs : List (Fin 3 → ℝ)) (st : BallState),
      (∀ i, |st.pos i| ≤ BOX_HALF - BALL_RADIUS) →
      ∀ i, |(runFrames inputs st).pos i| ≤ BOX_HALF - BALL_RADIUS := by
  intro inputs
  induction inputs with
  | nil => exact fun st h i => h i
  | cons a l ih => exact fun st _ i => ih (stepFrame a st) (stepFrame_abs a st) i

/-- The initial ball position (the origin) is in bounds. -/
lemma ballInit_in_box : ∀ i, |ballInit.pos i| ≤ BOX_HALF - BALL_RADIUS := by
  intro i
  fin_cases i <;>
    simp [ballInit] <;> norm_num [BOX_HALF, BALL_RADIUS]

/-- C10: at the end of every main-loop iteration — i.e. for every prefix
of the run — each coordinate of the ball position lies in the closed
interval `[-(BOX_HALF - BALL_RADIUS), BOX_HALF - BALL_RADIUS]`, given an
in-bounds initial position (the wall-bounce clamp restores the bound
every frame). -/
theorem C10_ball_in_box (inputs : List (Fin 3 → ℝ)) (st : BallState)
    (h0 : ∀ i, |st.pos i| ≤ BOX_HALF - BALL_RADIUS) :
    ∀ k, k ≤ inputs.length → ∀ i : Fin 3,
      -(BOX_HALF - BALL_RADIUS) ≤ (runFrames (inputs.take k) st).pos i
      ∧ (runFrames (inputs.take k) st).pos i ≤ BOX_HALF - BALL_RADIUS :=
  fun k _ i => abs_le.mp (runFrames_abs (inputs.take k) st h0 i)

/-- C10 (witness): the theorem instantiated at the real initial state
with a one-frame run of zero sensor input. -/
theorem C10_ball_in_box_witness :
    -(BOX_HALF - BALL_RADIUS)
      ≤ (runFrames (List.take 1 [fun _ => 0]) ballInit).pos 0
    ∧ (runFrames (List.take 1 [fun _ => 0]) ballInit).pos 0
      ≤ BOX_HALF - BALL_RADIUS :=
  C10_ball_in_box [fun _ => 0] ballInit ballInit_in_box 1 (le_refl 1) 0

end NewPy

namespace Pipeline

/-- The filter tail produces one orientation per remaining sample. -/
lemma estimateFrom_length (alpha dt : ℝ) :
    ∀ (ss : List Sample) (prev : Orientation),
      (estimateFrom alpha dt prev ss).length = ss.length := by
  intro ss
  induction ss with
  | nil => intro prev; rfl
  | cons s rest ih => intro prev; simp [estimateFrom, ih]

/-- The estimator output has exactly one entry per input sample. -/
lemma estimate_length (alpha dt : ℝ) (samples : List Sample) :
    (estimate alpha dt samples).length = samples.length := by
  cases samples with
  | nil => rfl
  | cons s rest => simp [estimate, estimateFrom_length]

/-- Each entry of the filter tail is one filter step from the previous
entry (the passed-in state for the head). -/
lemma estimateFrom_getD (alpha dt : ℝ) :
    ∀ (ss : List Sample) (prev : Orientation) (i : ℕ), i < ss.length →
      (estimateFrom alpha dt prev ss).getD i orient0
        = stepFilter alpha dt
            ((prev :: estimateFrom alpha dt prev ss).getD i orient0)
            (ss.getD i sample0) := by
  intro ss
  induction ss with
  | nil => intro prev i h; exact absurd h (by simp)
  | cons s rest ih =>
    intro prev i h
    cases i with
    | zero => simp [estimateFrom]
    | succ j =>
      have hj : j < rest.length := Nat.lt_of_succ_lt_succ h
      simp only [estimateFrom, List.getD_cons_succ]
      exact ih (stepFilter alpha dt prev s) j hj

/-- The estimator recurrence: entry `i + 1` is one filter step from
entry `i` and sample `i + 1`. -/
lemma estimate_getD_succ (alpha dt : ℝ) (samples : List Sample) (i : ℕ)
    (h : i + 1 < samples.length) :
    (estimate alpha dt samples).getD (i + 1) orient0
      = stepFilter alpha dt ((estimate alpha dt samples).getD i orient0)
          (samples.getD (i + 1) sample0) := by
  cases samples with
  | nil => exact absurd h (by simp)
  | cons s rest =>
    have hi : i < rest.length := Nat.lt_of_succ_lt_succ h
    simp only [estimate, List.getD_cons_succ]
    exact estimateFrom_getD alpha dt rest (seed s) i hi

/-- C3: for every non-empty sample sequence the estimator emits exactly
one `(roll, pitch)` entry per input sample; entry 0 is the
accelerometer-only seed of sample 0 (no gyro contribution), and every
entry `i ≥ 1` satisfies the complementary-filter recurrence
`roll[i] = alpha * (roll[i-1] + gx[i]*dt) + (1-alpha) * atan2(ay[i], az[i])`
and
`pitch[i] = alpha * (pitch[i-1] + gy[i]*dt) + (1-alpha) * atan2(-ax[i], sqrt(ay[i]² + az[i]²))`. -/
theorem C3_estimator_recurrence (alpha dt : ℝ) (samples : List Sample)
    (hne : samples ≠ []) :
    (estimate alpha dt samples).length = samples.length
    ∧ ((estimate alpha dt samples).getD 0 orient0).roll
        = atan2 (samples.getD 0 sample0).ay (samples.getD 0 sample0).az
    ∧ ((estimate alpha dt samples).getD 0 orient0).pitch
        = atan2 (-(samples.getD 0 sample0).ax)
            (Real.sqrt ((samples.getD 0 sample0).ay ^ 2
              + (samples.getD 0 sample0).az ^ 2))
    ∧ ∀ i : ℕ, i + 1 < samples.length →
        ((estimate alpha dt samples).getD (i + 1) orient0).roll
          = alpha * (((estimate alpha dt samples).getD i orient0).roll
              + (samples.getD (i + 1) sample0).gx * dt)
            + (1 - alpha) * atan2 (samples.getD (i + 1) sample0).ay
                (samples.getD (i + 1) sample0).az
        ∧ ((estimate alpha dt samples).getD (i + 1) orient0).pitch
          = alpha * (((estimate alpha dt samples).getD i orient0).pitch
              + (samples.getD (i + 1) sample0).gy * dt)
            + (1 - alpha) * atan2 (-(samples.getD (i + 1) sample0).ax)
                (Real.sqrt ((samples.getD (i + 1) sample0).ay ^ 2
                  + (samples.getD (i + 1) sample0).az ^ 2)) := by
  obtain ⟨s, rest, rfl⟩ := List.exists_cons_of_ne_nil hne
  refine ⟨estimate_length alpha dt _, rfl, rfl, fun i h => ?_⟩
  rw [estimate_getD_succ alpha dt _ i h]
  exact ⟨rfl, rfl⟩

/-- C3 (witness): the recurrence theorem instantiated on a concrete
two-sample sequence. -/
theorem C3_estimator_recurrence_witness :
    (estimate 1 1 [sample0, sample0]).length = 2 :=
  (C3_estimator_recurrence 1 1 [sample0, sample0]
    (List.cons_ne_nil _ _)).1.trans rfl

/-- C4: under a valid configuration, a log whose parse yields zero valid
samples makes the pipeline return the `EmptyInput` failure (so neither
estimation nor detection runs), and a successful summary always carries a
non-empty orientation trajectory of exactly one entry per parsed
sample — never an empty-but-successful result. -/
theorem C4_empty_input (alpha dt : ℝ) (text : List Char)
    (ha0 : 0 ≤ alpha) (ha1 : alpha ≤ 1) (hdt : 0 < dt) :
    (parseRawLog text = [] →
      runPipeline alpha dt text = Except.error PipelineError.emptyInput)
    ∧ ∀ s : RunSummary, runPipeline alpha dt text = Except.ok s →
        s.orientation ≠ [] ∧ s.orientation.length = (parseRawLog text).length := by
  constructor
  · intro hempty
    unfold runPipeline
    rw [if_pos ⟨ha0, ha1, hdt⟩, hempty]
  · intro s hs
    unfold runPipeline at hs
    rw [if_pos ⟨ha0, ha1, hdt⟩] at hs
    cases hp : parseRawLog text with
    | nil => rw [hp] at hs; cases hs
    | cons r rs =>
      rw [hp] at hs
      injection hs with h
      have horl : s.orientation.length = rs.length + 1 := by
        rw [← h]
        show (estimate alpha dt ((r :: rs).map convertSample)).length = _
        rw [estimate_length, List.length_map, List.length_cons]
      constructor
      · intro hnil
        rw [hnil] at horl
        exact absurd horl.symm (by simp)
      · rw [horl]
        exact (List.length_cons r rs).symm

/-- C4 (witness): the empty log parses to zero samples and the pipeline
(with a valid configuration) reports the `EmptyInput` failure. -/
theorem C4_empty_input_witness :
    runPipeline 0 1 [] = Except.error PipelineError.emptyInput :=
  (C4_empty_input 0 1 [] (le_refl 0) zero_le_one zero_lt_one).1 rfl

/-- `atan2` of the point on the positive y-axis is `π/2`. -/
lemma atan2_one_zero : atan2 1 0 = Real.pi / 2 := by
  show Complex.arg ⟨0, 1⟩ = Real.pi / 2
  rw [show (⟨0, 1⟩ : ℂ) = Complex.I from rfl]
  exact Complex.arg_I

/-- `atan2` of the point on the positive x-axis is `0`. -/
lemma atan2_zero_one : atan2 0 1 = 0 := by
  show Complex.arg ⟨1, 0⟩ = 0
  rw [show (⟨1, 0⟩ : ℂ) = (1 : ℂ) from rfl]
  exact Complex.arg_one

/-- At `alpha = 0` the filter degenerates to the pure accelerometer tilt
at every index. -/
lemma estimate_alpha_zero (dt : ℝ) (samples : List Sample) :
    ∀ i, i < samples.length →
      ((estimate 0 dt samples).getD i orient0).roll
        = atan2 (samples.getD i sample0).ay (samples.getD i sample0).az
      ∧ ((estimate 0 dt samples).getD i orient0).pitch
        = atan2 (-(samples.getD i sample0).ax)
            (Real.sqrt ((samples.getD i sample0).ay ^ 2
              + (samples.getD i sample0).az ^ 2)) := by
  intro i hi
  cases i with
  | zero =>
    cases samples with
    | nil => exact absurd hi (by simp)
    | cons s rest => exact ⟨rfl, rfl⟩
  | succ j =>
    rw [estimate_getD_succ 0 dt samples j hi]
    constructor <;> simp [stepFilter]

/-- At `alpha = 1` every step past the seed is pure gyro integration. -/
lemma estimate_alpha_one (dt : ℝ) (samples : List Sample) :
    ∀ i, i + 1 < samples.length →
      ((estimate 1 dt samples).getD (i + 1) orient0).roll
        = ((estimate 1 dt samples).getD i orient0).roll
          + (samples.getD (i + 1) sample0).gx * dt
      ∧ ((estimate 1 dt samples).getD (i + 1) orient0).pitch
        = ((estimate 1 dt samples).getD i orient0).pitch
          + (samples.getD (i + 1) sample0).gy * dt := by
  intro i hi
  rw [estimate_getD_succ 1 dt samples i hi]
  constructor <;> simp [stepFilter]

/-- C7 (counterexample): at the valid weight `alpha = 1` with an
all-zero-gyro two-sample input whose accelerometer direction changes, the
second roll output (`π/2`, carried over from the seed) differs from the
accelerometer tilt of sample 1 (`0`), refuting `roll[i] = roll_acc[i]`
for all `alpha ∈ [0,1]`. -/
theorem C7_counterexample :
    (0 : ℝ) ≤ 1 ∧ (1 : ℝ) ≤ 1
    ∧ gyroFree [cexSampleA, cexSampleB]
    ∧ ((estimate 1 1 [cexSampleA, cexSampleB]).getD 1 orient0).roll
        ≠ atan2 ([cexSampleA, cexSampleB].getD 1 sample0).ay
            ([cexSampleA, cexSampleB].getD 1 sample0).az := by
  refine ⟨zero_le_one, le_refl 1, ?_, ?_⟩
  · intro s hs
    simp only [List.mem_cons, List.mem_singleton] at hs
    rcases hs with h | h | h
    · subst h; exact ⟨rfl, rfl, rfl⟩
    · subst h; exact ⟨rfl, rfl, rfl⟩
    · exact absurd h (List.not_mem_nil s)
  · have hL : ((estimate 1 1 [cexSampleA, cexSampleB]).getD 1 orient0).roll
        = Real.pi / 2 := by
      show (stepFilter 1 1 (seed cexSampleA) cexSampleB).roll = Real.pi / 2
      simp [stepFilter, seed, cexSampleA, cexSampleB, atan2_one_zero]
    rw [hL]
    show Real.pi / 2 ≠ atan2 0 1
    rw [atan2_zero_one]
    exact ne_of_gt (by positivity)

/-- C7 (amended): with all-zero gyro channels, the filter at `alpha = 0`
reproduces the accelerometer tilt
`roll[i] = atan2(ay[i], az[i])`, `pitch[i] = atan2(-ax[i], sqrt(ay[i]² + az[i]²))`
at every index (for `alpha` strictly inside `(0,1]` the claimed identity
fails, see the counterexample); and at `alpha = 1`, ignoring the seed at
`i = 0`, the trajectory is pure gyro integration:
`roll[i+1] = roll[i] + gx[i+1]*dt`, `pitch[i+1] = pitch[i] + gy[i+1]*dt`. -/
theorem C7_filter_degeneracy (dt : ℝ) (samples : List Sample)
    (_hg : gyroFree samples) :
    (∀ i, i < samples.length →
      ((estimate 0 dt samples).getD i orient0).roll
        = atan2 (samples.getD i sample0).ay (samples.getD i sample0).az
      ∧ ((estimate 0 dt samples).getD i orient0).pitch
        = atan2 (-(samples.getD i sample0).ax)
            (Real.sqrt ((samples.getD i sample0).ay ^ 2
              + (samples.getD i sample0).az ^ 2)))
    ∧ ∀ i, i + 1 < samples.length →
      ((estimate 1 dt samples).getD (i + 1) orient0).roll
        = ((estimate 1 dt samples).getD i orient0).roll
          + (samples.getD (i + 1) sample0).gx * dt
      ∧ ((estimate 1 dt samples).getD (i + 1) orient0).pitch
        = ((estimate 1 dt samples).getD i orient0).pitch
          + (samples.getD (i + 1) sample0).gy * dt :=
  ⟨estimate_alpha_zero dt samples, estimate_alpha_one dt samples⟩

/-- C7 (witness): the degeneracy theorem applied to a concrete
single-sample zero-gyro input. -/
theorem C7_filter_degeneracy_witness :
    gyroFree [sample0]
    ∧ ((estimate 0 1 [sample0]).getD 0 orient0).roll
        = atan2 ([sample0].getD 0 sample0).ay ([sample0].getD 0 sample0).az := by
  have hg : gyroFree [sample0] := by
    intro s hs
    rw [List.mem_singleton] at hs
    subst hs
    exact ⟨rfl, rfl, rfl⟩
  exact ⟨hg, ((C7_filter_degeneracy 1 [sample0] hg).1 0 (by simp)).1⟩

end Pipeline

namespace MainPy

/-- `JointShape` is reflexive. -/
lemma jointShape_refl : ∀ o : Option Joint, JointShape o o
  | none => trivial
  | some _ => ⟨rfl, rfl⟩

/-- `JointShape` is transitive. -/
lemma jointShape_trans : ∀ {a b c : Option Joint},
    JointShape a b → JointShape b c → JointShape a c := by
  intro a b c h1 h2
  cases a <;> cases b <;> cases c <;>
    first
      | exact h1.elim
      | exact h2.elim
      | exact trivial
      | exact ⟨h1.1.trans h2.1, h1.2.trans h2.2⟩

/-- A predicate stable under every step of a fold holds of the fold. -/
lemma foldl_pred_mem {α β : Type _} (f : β → α → β) (P : β → Prop) :
    ∀ (l : List α) (s : β), P s → (∀ t g, g ∈ l → P t → P (f t g)) →
      P (l.foldl f s) := by
  intro l
  induction l with
  | nil => exact fun s hs _ => hs
  | cons a l ih =>
    intro s hs hstep
    exact ih (f s a) (hstep s a (List.mem_cons_self a l) hs)
      (fun t g hg ht => hstep t g (List.mem_cons_of_mem a hg) ht)

/-- Skeleton preservation: `children_by_parent` is untouched and every
dictionary entry keeps its presence, `original_position` and parent
link. -/
def Pres (a b : Skeleton) : Prop :=
  b.children_by_parent = a.children_by_parent
  ∧ ∀ n, JointShape (a.joints n) (b.joints n)

/-- `Pres` is reflexive. -/
lemma pres_refl (a : Skeleton) : Pres a a :=
  ⟨rfl, fun _ => jointShape_refl _⟩

/-- `Pres` is transitive. -/
lemma pres_trans {a b c : Skeleton} (h1 : Pres a b) (h2 : Pres b c) :
    Pres a c :=
  ⟨h2.1.trans h1.1, fun n => jointShape_trans (h1.2 n) (h2.2 n)⟩

/-- Updating one dictionary entry leaves every other name unchanged. -/
lemma updateJoint_joints_ne (sk : Skeleton) (name : String) (j : Joint)
    (n : String) (h : n ≠ name) :
    (updateJoint sk name j).joints n = sk.joints n := by
  show (if n = name then some j else sk.joints n) = sk.joints n
  rw [if_neg h]

/-- Replacing a present entry by one with the same `original_position`
and parent link preserves the skeleton shape. -/
lemma updateJoint_pres (sk : Skeleton) (name : String) (child child1 : Joint)
    (hj : sk.joints name = some child)
    (ho : child1.original_position = child.original_position)
    (hpp : child1.parent = child.parent) :
    Pres sk (updateJoint sk name child1) := by
  refine ⟨rfl, fun n => ?_⟩
  show JointShape (sk.joints n) (if n = name then some child1 else sk.joints n)
  by_cases hn : n = name
  · subst hn
    rw [hj, if_pos rfl]
    exact ⟨ho.symm, hpp.symm⟩
  · rw [if_neg hn]
    exact jointShape_refl _

/-- `_rotate_children` only ever rewrites positions: the children map and
every entry's presence, `original_position` and parent link survive. -/
lemma rotate_children_pres (R : Matrix (Fin 3) (Fin 3) ℝ) (pivot : Vec3) :
    ∀ (fuel : ℕ) (sk : Skeleton) (jname : String) (pj : Joint),
      Pres sk (rotate_children R pivot fuel sk jname pj) := by
  intro fuel
  induction fuel with
  | zero => exact fun sk jname pj => pres_refl sk
  | succ f ih =>
    intro sk jname pj
    cases hj : sk.joints jname with
    | none => simp only [rotate_children, hj]; exact pres_refl sk
    | some child =>
      simp only [rotate_children, hj]
      refine foldl_pred_mem _ (Pres sk) _ _
        (updateJoint_pres sk jname child _ hj rfl rfl)
        (fun t g _ ht => pres_trans ht (ih t g _))

/-- `_rotate_children` started at `jname` leaves every name not
reachable from `jname` (along `children_by_parent`) unchanged. -/
lemma rotate_children_frame (R : Matrix (Fin 3) (Fin 3) ℝ) (pivot : Vec3) :
    ∀ (fuel : ℕ) (sk : Skeleton) (jname : String) (pj : Joint) (n : String),
      ¬ Reach sk.children_by_parent jname n →
      (rotate_children R pivot fuel sk jname pj).joints n = sk.joints n := by
  intro fuel
  induction fuel with
  | zero => exact fun sk jname pj n _ => rfl
  | succ f ih =>
    intro sk jname pj n hnr
    cases hj : sk.joints jname with
    | none => simp only [rotate_children, hj]
    | some child =>
      simp only [rotate_children, hj]
      have hne : n ≠ jname := by
        intro h
        subst h
        exact hnr (Reach.refl n)
      refine (foldl_pred_mem _
        (fun s : Skeleton => s.joints n = sk.joints n
          ∧ s.children_by_parent = sk.children_by_parent) _ _
        ⟨updateJoint_joints_ne sk jname _ n hne, rfl⟩ ?_).1
      intro t g hg ht
      have hnr2 : ¬ Reach t.children_by_parent g n := by
        rw [ht.2]
        intro hr
        exact hnr (Reach.step jname g n hg hr)
      exact ⟨(ih t g _ n hnr2).trans ht.1,
        ((rotate_children_pres R pivot f t g _).1).trans ht.2⟩

/-- Folding `_rotate_children` over a list of child names preserves the
skeleton shape. -/
lemma rotateList_pres (R : Matrix (Fin 3) (Fin 3) ℝ) (pivot : Vec3)
    (fuel : ℕ) (sk0 sk1 : Skeleton) (names : List String) (pj : Joint)
    (h : Pres sk0 sk1) :
    Pres sk0
      (names.foldl (fun s g => rotate_children R pivot fuel s g pj) sk1) :=
  foldl_pred_mem _ (Pres sk0) names sk1 h
    (fun t g _ ht => pres_trans ht (rotate_children_pres R pivot fuel t g pj))

/-- Folding `_rotate_children` over child names of unreachable subtrees
leaves an unreachable name unchanged. -/
lemma rotateList_frame (R : Matrix (Fin 3) (Fin 3) ℝ) (pivot : Vec3)
    (fuel : ℕ) (sk0 sk1 : Skeleton) (names : List String) (pj : Joint)
    (n : String)
    (h1 : sk1.joints n = sk0.joints n)
    (hcbp : sk1.children_by_parent = sk0.children_by_parent)
    (hnr : ∀ g ∈ names, ¬ Reach sk0.children_by_parent g n) :
    (names.foldl (fun s g => rotate_children R pivot fuel s g pj) sk1).joints n
      = sk0.joints n := by
  refine (foldl_pred_mem _
    (fun s : Skeleton => s.joints n = sk0.joints n
      ∧ s.children_by_parent = sk0.children_by_parent) names sk1
    ⟨h1, hcbp⟩ ?_).1
  intro t g hg ht
  have hnr2 : ¬ Reach t.children_by_parent g n := by
    rw [ht.2]
    exact hnr g hg
  exact ⟨(rotate_children_frame R pivot fuel t g pj n hnr2).trans ht.1,
    ((rotate_children_pres R pivot fuel t g pj).1).trans ht.2⟩

/-- C9: `rotate_joint` touches only the subtree of the named joint — an
absent name or a parentless joint leaves the whole skeleton unchanged;
every name outside the subtree (not reachable from the named joint along
`children_by_parent`) keeps its dictionary entry; and in every case every
entry keeps its presence, its `original_position` and its parent link
(`JointShape`), and the `children_by_parent` map is unchanged — so only
positions inside the subtree can change. -/
theorem C9_rotate_joint_frame (sk : Skeleton) (joint_name : String)
    (axis : Vec3) (angle : ℝ) (fuel : ℕ) :
    (sk.joints joint_name = none →
      rotate_joint fuel sk joint_name axis angle = sk)
    ∧ (∀ j : Joint, sk.joints joint_name = some j → j.parent = none →
        rotate_joint fuel sk joint_name axis angle = sk)
    ∧ (∀ n, ¬ Reach sk.children_by_parent joint_name n →
        (rotate_joint fuel sk joint_name axis angle).joints n = sk.joints n)
    ∧ (∀ n, JointShape (sk.joints n)
        ((rotate_joint fuel sk joint_name axis angle).joints n))
    ∧ (rotate_joint fuel sk joint_name axis angle).children_by_parent
        = sk.children_by_parent := by
  cases hj : sk.joints joint_name with
  | none =>
    have he : rotate_joint fuel sk joint_name axis angle = sk := by
      simp only [rotate_joint, hj]
    exact ⟨fun _ => he, fun _ _ _ => he, fun n _ => by rw [he],
      fun n => by rw [he]; exact jointShape_refl _, by rw [he]⟩
  | some joint =>
    cases hp : joint.parent with
    | none =>
      have he : rotate_joint fuel sk joint_name axis angle = sk := by
        simp only [rotate_joint, hj, hp]
      exact ⟨fun _ => he, fun _ _ _ => he, fun n _ => by rw [he],
        fun n => by rw [he]; exact jointShape_refl _, by rw [he]⟩
    | some parent_name =>
      cases hpar : sk.joints parent_name with
      | none =>
        have he : rotate_joint fuel sk joint_name axis angle = sk := by
          simp only [rotate_joint, hj, hp, hpar]
        exact ⟨fun _ => he, fun _ _ _ => he, fun n _ => by rw [he],
          fun n => by rw [he]; exact jointShape_refl _, by rw [he]⟩
      | some parent =>
        have hpres : Pres sk (rotate_joint fuel sk joint_name axis angle) := by
          simp only [rotate_joint, hj, hp, hpar]
          exact rotateList_pres _ _ fuel sk _ _ _
            (updateJoint_pres sk joint_name joint _ hj rfl hp.symm)
        refine ⟨fun h => Option.noConfusion h,
          fun j hjj hppn => ?_, fun n hnr => ?_, hpres.2, hpres.1⟩
        · have hje : joint = j := Option.some.inj hjj
          rw [← hje, hp] at hppn
          exact Option.noConfusion hppn
        · have hne : n ≠ joint_name := by
            intro h
            subst h
            exact hnr (Reach.refl n)
          simp only [rotate_joint, hj, hp, hpar]
          exact rotateList_frame _ _ fuel sk _ _ _ n
            (updateJoint_joints_ne sk joint_name _ n hne) rfl
            (fun g hg hr => hnr (Reach.step joint_name g n hg hr))

/-- C9 (witness): rotating an absent joint name on a concrete one-joint
skeleton changes nothing. -/
theorem C9_rotate_joint_frame_witness :
    rotate_joint 3 skW "tibia_top" axisW 1 = skW :=
  (C9_rotate_joint_frame skW "tibia_top" axisW 1 3).1 rfl

end MainPy
